import Mathlib

/-!
Shallow embedding of the `astro-get-remote-assets` post-build plugin
(`src/index.js`).  The plugin scans HTML documents for image references that
point at a configured remote origin, downloads those images into
`<imageDir>/cms/`, and rewrites the documents to reference the local copies.

Machine-word arithmetic (the MD5 digest used for content-addressed naming)
is modelled over `Nat` with explicit reduction modulo `2 ^ 32`.  Fallible
JavaScript operations (`decodeURI`, `new URL`, `decodeURIComponent`) are
modelled as `Option`-valued functions; a thrown exception is `none`.
-/

namespace GRA

/-! ## Character and string utilities -/

/-- ASCII lowercasing, the effect of JavaScript `toLowerCase()` on the ASCII
characters that appear in the regex literals and extension candidates. -/
def lowerC (c : Char) : Char :=
  if 'A' ≤ c ∧ c ≤ 'Z' then Char.ofNat (c.toNat + 32) else c

/-- Lowercase a character list. -/
def lowerS (s : List Char) : List Char := s.map lowerC

def isDigitC (c : Char) : Bool := decide ('0' ≤ c) && decide (c ≤ '9')

def isAlphaC (c : Char) : Bool :=
  (decide ('a' ≤ c) && decide (c ≤ 'z')) || (decide ('A' ≤ c) && decide (c ≤ 'Z'))

def isHexDigitC (c : Char) : Bool :=
  isDigitC c || (decide ('a' ≤ c) && decide (c ≤ 'f')) ||
    (decide ('A' ≤ c) && decide (c ≤ 'F'))

/-- Numeric value of a hex digit (0 for non-digits; callers guard). -/
def hexVal (c : Char) : Nat :=
  if '0' ≤ c ∧ c ≤ '9' then c.toNat - 48
  else if 'a' ≤ c ∧ c ≤ 'f' then c.toNat - 87
  else if 'A' ≤ c ∧ c ≤ 'F' then c.toNat - 55
  else 0

/-- Lowercase hex digit for a value `< 16`. -/
def hexDigitL (n : Nat) : Char :=
  if n < 10 then Char.ofNat (48 + n) else Char.ofNat (87 + n)

/-- Uppercase hex digit for a value `< 16` (as emitted by `encodeURI`). -/
def hexDigitU (n : Nat) : Char :=
  if n < 10 then Char.ofNat (48 + n) else Char.ofNat (55 + n)

/-- A byte as two lowercase hex digits. -/
def byteHexL (b : Nat) : List Char := [hexDigitL (b / 16), hexDigitL (b % 16)]

/-- A byte as two uppercase hex digits. -/
def byteHexU (b : Nat) : List Char := [hexDigitU (b / 16), hexDigitU (b % 16)]

/-- UTF-8 encoding of a single code point (bytes as `Nat`). -/
def utf8EncodeChar (c : Char) : List Nat :=
  let n := c.toNat
  if n < 128 then [n]
  else if n < 2048 then [192 + n / 64, 128 + n % 64]
  else if n < 65536 then [224 + n / 4096, 128 + n / 64 % 64, 128 + n % 64]
  else [240 + n / 262144, 128 + n / 4096 % 64, 128 + n / 64 % 64, 128 + n % 64]

/-- UTF-8 bytes of a character list. -/
def utf8Bytes (s : List Char) : List Nat := (s.map utf8EncodeChar).flatten

/-- Split on a separator character (no separator yields one chunk). -/
def splitOnChar (sep : Char) : List Char → List (List Char)
  | [] => [[]]
  | c :: t =>
    match splitOnChar sep t with
    | [] => [[c]]
    | h :: r => if c = sep then [] :: h :: r else (c :: h) :: r

/-! ## Percent encoding and decoding (`encodeURI` / `decodeURI` /
`decodeURIComponent`)

The ECMAScript `Decode` abstract operation: a `%` must be followed by two hex
digits; a lead byte `≥ 0x80` must begin a valid UTF-8 sequence whose
continuation bytes are themselves `%`-escapes, otherwise a `URIError` is
thrown (modelled as `none`).  `decodeURI` leaves escapes of the reserved set
`; / ? : @ & = + $ , #` unconsumed. -/

/-- Reserved characters whose escapes `decodeURI` preserves. -/
def reservedURISet : List Char := [';', '/', '?', ':', '@', '&', '=', '+', '$', ',', '#']

/-- Characters that `encodeURI` leaves unescaped. -/
def uriUnescaped (c : Char) : Bool :=
  isAlphaC c || isDigitC c ||
    [';', '/', '?', ':', '@', '&', '=', '+', '$', ',', '#',
     '-', '_', '.', '!', '~', '*', Char.ofNat 39, '(', ')'].contains c

/-- Read one continuation-byte escape `%HH` with `0x80 ≤ HH < 0xC0`. -/
def contByte : List Char → Option (Nat × List Char)
  | '%' :: h1 :: h2 :: t =>
    if isHexDigitC h1 && isHexDigitC h2 then
      let b := 16 * hexVal h1 + hexVal h2
      if 128 ≤ b ∧ b < 192 then some (b - 128, t) else none
    else none
  | _ => none

/-- One step of the ECMAScript `Decode` operation, fuelled (fuel is an upper
bound on the number of emitted units; `s.length` always suffices). -/
def pctDecode (preserve : Bool) : Nat → List Char → Option (List Char)
  | 0, [] => some []
  | 0, _ :: _ => none
  | _ + 1, [] => some []
  | fuel + 1, '%' :: rest =>
    match rest with
    | h1 :: h2 :: rest2 =>
      if isHexDigitC h1 && isHexDigitC h2 then
        let b := 16 * hexVal h1 + hexVal h2
        if b < 128 then
          let ch := Char.ofNat b
          let unit := if preserve && reservedURISet.contains ch then ['%', h1, h2] else [ch]
          (pctDecode preserve fuel rest2).map (unit ++ ·)
        else if b < 192 then none
        else if b < 224 then
          match contByte rest2 with
          | none => none
          | some (x1, r1) =>
            let cp := (b - 192) * 64 + x1
            if 128 ≤ cp then (pctDecode preserve fuel r1).map (Char.ofNat cp :: ·) else none
        else if b < 240 then
          match contByte rest2 with
          | none => none
          | some (x1, r1) =>
            match contByte r1 with
            | none => none
            | some (x2, r2) =>
              let cp := (b - 224) * 4096 + x1 * 64 + x2
              if 2048 ≤ cp ∧ ¬(55296 ≤ cp ∧ cp ≤ 57343) then
                (pctDecode preserve fuel r2).map (Char.ofNat cp :: ·)
              else none
        else if b < 248 then
          match contByte rest2 with
          | none => none
          | some (x1, r1) =>
            match contByte r1 with
            | none => none
            | some (x2, r2) =>
              match contByte r2 with
              | none => none
              | some (x3, r3) =>
                let cp := (b - 240) * 262144 + x1 * 4096 + x2 * 64 + x3
                if 65536 ≤ cp ∧ cp ≤ 1114111 then
                  (pctDecode preserve fuel r3).map (Char.ofNat cp :: ·)
                else none
        else none
      else none
    | _ => none
  | fuel + 1, c :: rest => (pctDecode preserve fuel rest).map (c :: ·)

/-- `decodeURI(s)`: decode except reserved escapes; `none` models `URIError`. -/
def decodeURIM (s : List Char) : Option (List Char) := pctDecode true s.length s

/-- `decodeURIComponent(s)`; `none` models `URIError`. -/
def decodeURIComponentM (s : List Char) : Option (List Char) := pctDecode false s.length s

/-- `encodeURI(s)` (total: Lean `Char` has no lone surrogates). -/
def encodeURIM (s : List Char) : List Char :=
  (s.map fun c =>
    if uriUnescaped c then [c]
    else ((utf8EncodeChar c).map fun b => '%' :: byteHexU b).flatten).flatten

/-! ## WHATWG URL pathname (`new URL(u).pathname`)

Model for absolute URLs as produced by `encodeURI`: scheme, optional
authority, path up to `?`/`#`.  For special schemes, `\` counts as `/`, any
run of slashes may precede the authority, an empty authority throws, and
dot segments are normalised.  Host validation and additional path
percent-encoding are outside the model (inputs are already `encodeURI`-encoded
and hosts in the analysed configurations are plain). -/

def isSchemeRestC (c : Char) : Bool :=
  isAlphaC c || isDigitC c || c = '+' || c = '-' || c = '.'

/-- Split `scheme:rest`; `none` models `new URL` throwing on a relative URL. -/
def parseScheme (u : List Char) : Option (List Char × List Char) :=
  match u with
  | [] => none
  | c :: _ =>
    if isAlphaC c then
      let sch := u.takeWhile isSchemeRestC
      match u.drop sch.length with
      | ':' :: rest => some (sch, rest)
      | _ => none
    else none

def specialSchemes : List (List Char) :=
  [['h','t','t','p'], ['h','t','t','p','s'], ['w','s'], ['w','s','s'],
   ['f','t','p'], ['f','i','l','e']]

/-- WHATWG dot-segment normalisation over the segments after the leading `/`. -/
def dotNorm (stack : List (List Char)) : List (List Char) → List (List Char)
  | [] => stack.reverse
  | [s] =>
    if s = ['.'] then stack.reverse ++ [[]]
    else if s = ['.', '.'] then (stack.drop 1).reverse ++ [[]]
    else stack.reverse ++ [s]
  | s :: t =>
    if s = ['.'] then dotNorm stack t
    else if s = ['.', '.'] then dotNorm (stack.drop 1) t
    else dotNorm (s :: stack) t

/-- Rebuild a pathname `/seg1/seg2/...` from segments. -/
def joinSegs (segs : List (List Char)) : List Char :=
  (segs.map ('/' :: ·)).flatten

/-- Normalised pathname from the raw path text following the authority. -/
def normalizePath (raw : List Char) : List Char :=
  match raw with
  | [] => ['/']
  | _ :: body =>
    let segs := dotNorm [] (splitOnChar '/' body)
    if segs.isEmpty then ['/'] else joinSegs segs

def notPathEnd (c : Char) : Bool := !(c = '?' || c = '#')

/-- `new URL(u).pathname`; `none` models `new URL` throwing. -/
def urlPathname (u : List Char) : Option (List Char) :=
  match parseScheme u with
  | none => none
  | some (sch, rest) =>
    if specialSchemes.contains (lowerS sch) then
      let rest1 := rest.dropWhile fun c => c = '/' || c = '\\'
      let auth := rest1.takeWhile fun c => !(c = '/' || c = '\\' || c = '?' || c = '#')
      if auth.isEmpty then none
      else
        let rawPath := (rest1.drop auth.length).takeWhile notPathEnd
        some (normalizePath (rawPath.map fun c => if c = '\\' then '/' else c))
    else
      match rest with
      | '/' :: '/' :: rest1 =>
        let auth := rest1.takeWhile fun c => !(c = '/' || c = '?' || c = '#')
        let rawPath := (rest1.drop auth.length).takeWhile notPathEnd
        some (normalizePath rawPath)
      | _ => some (rest.takeWhile notPathEnd)

/-! ## `path` module fragments (POSIX behaviour) -/

/-- Last `/`-separated segment of a pathname (possibly empty). -/
def lastSeg (p : List Char) : List Char := ((splitOnChar '/' p).getLast?).getD []

/-- Index (from the front) of the last occurrence of `c`, if any. -/
def lastIdxOf (c : Char) (s : List Char) : Option Nat :=
  match s.reverse.findIdx? (· = c) with
  | none => none
  | some r => some (s.length - 1 - r)

/-- `path.extname` (POSIX): suffix of the basename from its last dot; empty
when there is no dot, when the dot is the leading character, or for `..`. -/
def extnameM (s : List Char) : List Char :=
  let b := ((splitOnChar '/' s).getLast?).getD []
  match lastIdxOf '.' b with
  | none => []
  | some i =>
    if i = 0 then []
    else if b = ['.', '.'] then []
    else b.drop i

/-- `path.flatten(a, b)` for an already-normalised `a` without trailing slash
(the only shape the plugin produces). -/
def pathJoin (a b : String) : String := ⟨a.data ++ '/' :: b.data⟩

/-- Directory part of a path (text before the final `/`). -/
def pathDirname (p : String) : String :=
  match lastIdxOf '/' p.data with
  | none => "."
  | some i => ⟨p.data.take i⟩

/-- Segments of an absolute normalised path, without the empty leading one. -/
def pathSegs (p : String) : List (List Char) :=
  (splitOnChar '/' p.data).filter (· ≠ [])

/-- Drop the longest common prefix of two segment lists. -/
def dropCommon : List (List Char) → List (List Char) → List (List Char) × List (List Char)
  | a :: as, b :: bs => if a = b then dropCommon as bs else (a :: as, b :: bs)
  | as, bs => (as, bs)

/-- `path.relative(fr, dst)` for absolute normalised paths. -/
def pathRelative (fr dst : String) : String :=
  let (fa, ta) := dropCommon (pathSegs fr) (pathSegs dst)
  let parts := fa.map (fun _ => ['.', '.']) ++ ta
  match parts with
  | [] => ""
  | h :: t => ⟨h ++ (t.map ('/' :: ·)).flatten⟩

/-! ## MD5 (`crypto.createHash('md5')`), over `Nat` modulo `2 ^ 32` -/

def m32 (n : Nat) : Nat := n % 4294967296

/-- Rotate a 32-bit word left by `s` places. -/
def rotl32 (x s : Nat) : Nat := (x % 2 ^ (32 - s)) * 2 ^ s + x / 2 ^ (32 - s)

/-- 32-bit bitwise complement. -/
def not32 (x : Nat) : Nat := 4294967295 - x

def md5F (b c d : Nat) : Nat := (b &&& c) ||| (not32 b &&& d)
def md5G (b c d : Nat) : Nat := (b &&& d) ||| (c &&& not32 d)
def md5H (b c d : Nat) : Nat := b ^^^ c ^^^ d
def md5I (b c d : Nat) : Nat := c ^^^ (b ||| not32 d)

/-- RFC 1321 sine-derived constant table. -/
def md5K : List Nat :=
  [0xd76aa478, 0xe8c7b756, 0x242070db, 0xc1bdceee, 0xf57c0faf, 0x4787c62a, 0xa8304613, 0xfd469501,
   0x698098d8, 0x8b44f7af, 0xffff5bb1, 0x895cd7be, 0x6b901122, 0xfd987193, 0xa679438e, 0x49b40821,
   0xf61e2562, 0xc040b340, 0x265e5a51, 0xe9b6c7aa, 0xd62f105d, 0x02441453, 0xd8a1e681, 0xe7d3fbc8,
   0x21e1cde6, 0xc33707d6, 0xf4d50d87, 0x455a14ed, 0xa9e3e905, 0xfcefa3f8, 0x676f02d9, 0x8d2a4c8a,
   0xfffa3942, 0x8771f681, 0x6d9d6122, 0xfde5380c, 0xa4beea44, 0x4bdecfa9, 0xf6bb4b60, 0xbebfbc70,
   0x289b7ec6, 0xeaa127fa, 0xd4ef3085, 0x04881d05, 0xd9d4d039, 0xe6db99e5, 0x1fa27cf8, 0xc4ac5665,
   0xf4292244, 0x432aff97, 0xab9423a7, 0xfc93a039, 0x655b59c3, 0x8f0ccc92, 0xffeff47d, 0x85845dd1,
   0x6fa87e4f, 0xfe2ce6e0, 0xa3014314, 0x4e0811a1, 0xf7537e82, 0xbd3af235, 0x2ad7d2bb, 0xeb86d391]

/-- Per-operation left-rotation amounts. -/
def md5S : List Nat :=
  [7, 12, 17, 22, 7, 12, 17, 22, 7, 12, 17, 22, 7, 12, 17, 22,
   5, 9, 14, 20, 5, 9, 14, 20, 5, 9, 14, 20, 5, 9, 14, 20,
   4, 11, 16, 23, 4, 11, 16, 23, 4, 11, 16, 23, 4, 11, 16, 23,
   6, 10, 15, 21, 6, 10, 15, 21, 6, 10, 15, 21, 6, 10, 15, 21]

/-- One of the 64 MD5 operations on state `(a, b, c, d)`. -/
def md5Op (w : List Nat) (st : Nat × Nat × Nat × Nat) (i : Nat) : Nat × Nat × Nat × Nat :=
  let (a, b, c, d) := st
  let fg : Nat × Nat :=
    if i < 16 then (md5F b c d, i)
    else if i < 32 then (md5G b c d, (5 * i + 1) % 16)
    else if i < 48 then (md5H b c d, (3 * i + 5) % 16)
    else (md5I b c d, (7 * i) % 16)
  let tmp := m32 (a + fg.1 + md5K.getD i 0 + w.getD fg.2 0)
  (d, m32 (b + rotl32 tmp (md5S.getD i 0)), b, c)

/-- Split a list into chunks of `n` (fuel `≥ length` suffices). -/
def chunksOf (n : Nat) : Nat → List α → List (List α)
  | _, [] => []
  | 0, _ => []
  | fuel + 1, l => l.take n :: chunksOf n fuel (l.drop n)

/-- Four little-endian bytes as a 32-bit word. -/
def leWord (bs : List Nat) : Nat :=
  bs.getD 0 0 + 256 * bs.getD 1 0 + 65536 * bs.getD 2 0 + 16777216 * bs.getD 3 0

/-- A 32-bit word as four little-endian bytes. -/
def leBytes4 (n : Nat) : List Nat :=
  [n % 256, n / 256 % 256, n / 65536 % 256, n / 16777216 % 256]

/-- The 64-bit message length as eight little-endian bytes. -/
def leBytes8 (n : Nat) : List Nat :=
  leBytes4 (n % 4294967296) ++ leBytes4 (n / 4294967296 % 4294967296)

/-- MD5 padding: `0x80`, zeros to 56 mod 64, 8-byte little-endian bit length. -/
def md5Pad (msg : List Nat) : List Nat :=
  let len := msg.length
  msg ++ 128 :: List.replicate ((119 - len % 64) % 64) 0 ++
    leBytes8 (8 * len % 18446744073709551616)

/-- Compress one 64-byte chunk into the running state. -/
def md5Chunk (st : Nat × Nat × Nat × Nat) (chunk : List Nat) : Nat × Nat × Nat × Nat :=
  let w := (chunksOf 4 chunk.length chunk).map leWord
  let e := (List.range 64).foldl (md5Op w) st
  (m32 (st.1 + e.1), m32 (st.2.1 + e.2.1), m32 (st.2.2.1 + e.2.2.1), m32 (st.2.2.2 + e.2.2.2))

/-- MD5 digest (16 bytes) of a byte list. -/
def md5Bytes (msg : List Nat) : List Nat :=
  let padded := md5Pad msg
  let st := (chunksOf 64 padded.length padded).foldl md5Chunk
    (0x67452301, 0xefcdab89, 0x98badcfe, 0x10325476)
  leBytes4 st.1 ++ leBytes4 st.2.1 ++ leBytes4 st.2.2.1 ++ leBytes4 st.2.2.2

/-- Lowercase-hex MD5 of the UTF-8 bytes of a character list
(`crypto.createHash('md5').update(s).digest('hex')`). -/
def md5HexL (s : List Char) : List Char := ((md5Bytes (utf8Bytes s)).map byteHexL).flatten

/-- Lowercase-hex MD5 of a string. -/
def md5Hex (s : String) : String := ⟨md5HexL s.data⟩

/-! ## Filename derivation (`downloadImage`, src/index.js lines 167-214)

The source computes `encodedUrl = encodeURI(decodeURI(imageUrl))`, hashes the
*original* `imageUrl` with MD5, extracts the trailing extension of the last
pathname segment of `encodedUrl` (percent-decoded, lowercased, kept only when
in the allow-list), and names the file `cms-image-<hash><ext>` under
`<imagesPath>/cms/`.  Any exception (malformed escape, unparsable URL) is
caught by `downloadImage`, which then returns `null`. -/

/-- The extension allow-list of `downloadImage`. -/
def allowedExts : List String := [".jpg", ".jpeg", ".png", ".gif", ".webp", ".avif"]

/-- The encoded URL and derived filename, or `none` when a step throws. -/
def deriveParts (u : String) : Option (String × String) :=
  match decodeURIM u.data with
  | none => none
  | some dec =>
    let encodedUrl := encodeURIM dec
    let urlHash := md5HexL u.data
    match urlPathname encodedUrl with
    | none => none
    | some pn =>
      let originalFilename := lastSeg pn
      let extOpt : Option String :=
        if originalFilename.isEmpty then some ".jpg"
        else
          match decodeURIComponentM originalFilename with
          | none => none
          | some decodedFilename =>
            let ext : String := ⟨lowerS (extnameM decodedFilename)⟩
            some (if !ext.isEmpty && allowedExts.contains ext then ext else ".jpg")
      match extOpt with
      | none => none
      | some ext => some (⟨encodedUrl⟩, "cms-image-" ++ ⟨urlHash⟩ ++ ext)

/-- The derived local path `<imagesPath>/cms/cms-image-<hash><ext>`. -/
def deriveLocalPath (imagesPath u : String) : Option String :=
  (deriveParts u).map fun p => pathJoin (pathJoin imagesPath "cms") p.2


/-! ## The two scanner regexes (`processHtmlFile`, src/index.js lines 92-153)

`processHtmlFile` builds, per configured origin,

  `imgRegex    = (<(?:img|source)[^>]*(?:src|srcset)=")(ORIGIN[^"]+)([^>]*>)` with flags `gi`,
  `srcsetRegex = (srcset="[^"]*)(ORIGIN[^s",]+)`                              with flags `gi`,

where `ORIGIN` is the configured origin string interpolated verbatim (so its
`.` characters are regex wildcards, and the `i` flag applies to it).  In the
srcset pattern the source text is a template literal, in which the escape
`\s` denotes the plain letter `s`; the negated class therefore excludes the
letter `s` (case-insensitively), the quote and the comma — not whitespace.

The engine below implements leftmost scanning with greedy, backtracking
character-class quantifiers — the exact semantics of these two patterns for
origins whose only regex metacharacter is `.` (true of any plain origin URL).
-/

/-- An atom of the two patterns: case-insensitive literal, ordered
alternation of literals, interpolated origin (`.` wildcard, case-insensitive),
and greedy star/plus of a negated character class. -/
inductive RAtom
  | lit (s : List Char)
  | alt (ss : List (List Char))
  | wild (s : List Char)
  | star (excl : List Char)
  | plus (excl : List Char)

/-- Case-insensitive literal prefix test. -/
def ciPrefix (pat t : List Char) : Bool := decide (lowerS (t.take pat.length) = lowerS pat)

/-- Origin prefix test: `.` matches any character, others case-insensitively. -/
def wildPrefix (pat t : List Char) : Bool :=
  decide (pat.length ≤ t.length) &&
    (pat.zip t).all fun pc => decide (pc.1 = '.') || decide (lowerC pc.1 = lowerC pc.2)

/-- Membership test of a negated class under the `i` flag (class entries are
given lowercased). -/
def classOk (excl : List Char) (c : Char) : Bool := !(excl.contains (lowerC c))

/-- Length of the maximal run a class quantifier can consume. -/
def runLen (excl : List Char) (t : List Char) : Nat := (t.takeWhile (classOk excl)).length

/-- Try consumption lengths from `k` down to `0` (greedy backtracking). -/
def downFrom (f : Nat → Option α) : Nat → Option α
  | 0 => f 0
  | k + 1 =>
    match f (k + 1) with
    | some r => some r
    | none => downFrom f k

/-- Try consumption lengths from `k` down to `1` (greedy backtracking, `+`). -/
def downTo1 (f : Nat → Option α) : Nat → Option α
  | 0 => none
  | k + 1 =>
    match f (k + 1) with
    | some r => some r
    | none => downTo1 f k

/-- Anchored match of an atom list, returning the text consumed by each atom.
Fuel bounds the nesting depth; `atoms.length + 1` always suffices because each
recursive step consumes one atom. -/
def mAtoms : Nat → List RAtom → List Char → Option (List (List Char))
  | 0, _, _ => none
  | _ + 1, [], _ => some []
  | fuel + 1, .lit s :: as, t =>
    if ciPrefix s t then (mAtoms fuel as (t.drop s.length)).map (t.take s.length :: ·) else none
  | fuel + 1, .alt ss :: as, t =>
    ss.findSome? fun s =>
      if ciPrefix s t then (mAtoms fuel as (t.drop s.length)).map (t.take s.length :: ·) else none
  | fuel + 1, .wild s :: as, t =>
    if wildPrefix s t then (mAtoms fuel as (t.drop s.length)).map (t.take s.length :: ·) else none
  | fuel + 1, .star excl :: as, t =>
    downFrom (fun k => (mAtoms fuel as (t.drop k)).map (t.take k :: ·)) (runLen excl t)
  | fuel + 1, .plus excl :: as, t =>
    downTo1 (fun k => (mAtoms fuel as (t.drop k)).map (t.take k :: ·)) (runLen excl t)

/-- `String.prototype.matchAll` over a `g`-flagged pattern: scan left to
right, resume after each match (fuel `t.length + 1` suffices). -/
def scanAll (atoms : List RAtom) : Nat → List Char → List (List (List Char))
  | 0, _ => []
  | fuel + 1, t =>
    match mAtoms (atoms.length + 1) atoms t with
    | some ch => ch :: scanAll atoms fuel (t.drop (max ch.flatten.length 1))
    | none =>
      match t with
      | [] => []
      | _ :: t2 => scanAll atoms fuel t2

/-- A match of `imgRegex`: the full match and its three capture groups. -/
structure ImgMatch where
  full : String
  g1 : String
  g2 : String
  g3 : String
deriving DecidableEq, Repr

/-- Atoms of `imgRegex` for one origin. -/
def imgAtoms (origin : List Char) : List RAtom :=
  [.lit ['<'], .alt ["img".data, "source".data], .star ['>'],
   .alt ["src".data, "srcset".data], .lit ['=', '"'],
   .wild origin, .plus ['"'], .star ['>'], .lit ['>']]

/-- Regroup atom chunks into the capture groups of `imgRegex`. -/
def imgMatchOfChunks (ch : List (List Char)) : ImgMatch :=
  { full := ⟨ch.flatten⟩
    g1 := ⟨(ch.take 5).flatten⟩
    g2 := ⟨((ch.drop 5).take 2).flatten⟩
    g3 := ⟨(ch.drop 7).flatten⟩ }

/-- All `imgRegex` matches of a document, in document order. -/
def imgScan (origin content : String) : List ImgMatch :=
  (scanAll (imgAtoms origin.data) (content.data.length + 1) content.data).map imgMatchOfChunks

/-- A match of `srcsetRegex`: the full match and its two capture groups. -/
structure SrcsetMatch where
  full : String
  g1 : String
  g2 : String
deriving DecidableEq, Repr

/-- Atoms of `srcsetRegex` for one origin.  The final class excludes the
letter `s`, the quote and the comma (template-literal `\s` is the letter). -/
def srcsetAtoms (origin : List Char) : List RAtom :=
  [.lit "srcset=\"".data, .star ['"'], .wild origin, .plus ['s', '"', ',']]

/-- Regroup atom chunks into the capture groups of `srcsetRegex`. -/
def srcsetMatchOfChunks (ch : List (List Char)) : SrcsetMatch :=
  { full := ⟨ch.flatten⟩
    g1 := ⟨(ch.take 2).flatten⟩
    g2 := ⟨(ch.drop 2).flatten⟩ }

/-- All `srcsetRegex` matches of a document, in document order. -/
def srcsetScan (origin content : String) : List SrcsetMatch :=
  (scanAll (srcsetAtoms origin.data) (content.data.length + 1) content.data).map
    srcsetMatchOfChunks

/-! ## Substitution (`content.replace(searchString, replacement)`) -/

/-- `String.prototype.replace` with a string pattern: replace the first
occurrence only (for replacements without `$` patterns, as produced here). -/
def replaceFirstL (t s r : List Char) : List Char :=
  match t with
  | [] => []
  | c :: t2 => if s.isPrefixOf t then r ++ t.drop s.length else c :: replaceFirstL t2 s r

/-- String wrapper of `replaceFirstL`. -/
def strReplaceFirst (t s r : String) : String := ⟨replaceFirstL t.data s.data r.data⟩

/-- `s` occurs in `t` starting at index `k`. -/
def occursAt (t : List Char) (k : Nat) (s : List Char) : Bool := s.isPrefixOf (t.drop k)

/-- `s` occurs somewhere in `t`. -/
def containsSub : List Char → List Char → Bool
  | [], s => s.isEmpty
  | c :: t, s => s.isPrefixOf (c :: t) || containsSub t s

/-! ## Asset cache and per-document pipeline
(`processHtmlFile` / `downloadImage`, src/index.js lines 81-214)

The run state carries the `downloadedImages` map (association list, most
recent first, looked up front to back — `Map` semantics for this insert-once
use), the set of files existing on disk, and a count of Fetcher invocations.
The Fetcher itself is an oracle `fetchOk : String → Bool` applied to the
encoded URL: `true` means `downloadWithTimeout` resolved with the path (and
wrote the file), `false` that it resolved `null` (and left no file). -/

structure RunState where
  cache : List (String × String)
  files : List String
  fetches : Nat
deriving DecidableEq, Repr

/-- `downloadedImages.get` (first matching key). -/
def lookupCache : List (String × String) → String → Option String
  | [], _ => none
  | (k, v) :: t, u => if k = u then some v else lookupCache t u

/-- `downloadImage(imageUrl, imagesPath)` (lines 167-214): derive the
filename, short-circuit when the file exists, otherwise invoke the Fetcher;
any derivation exception is caught and yields `null`. -/
def downloadImageM (fetchOk : String → Bool) (imagesPath u : String) (st : RunState) :
    Option String × RunState :=
  match deriveParts u with
  | none => (none, st)
  | some (encodedUrl, filename) =>
    let localPath := pathJoin (pathJoin imagesPath "cms") filename
    if st.files.contains localPath then (some localPath, st)
    else if fetchOk encodedUrl then
      (some localPath, { st with files := localPath :: st.files, fetches := st.fetches + 1 })
    else (none, { st with fetches := st.fetches + 1 })

/-- The per-reference cache-or-fetch step of `processHtmlFile`
(lines 108-117 and 138-146): consult `downloadedImages`, else download and
record the path only on success. -/
def resolveUrlM (fetchOk : String → Bool) (imagesPath u : String) (st : RunState) :
    Option String × RunState :=
  match lookupCache st.cache u with
  | some p => (some p, st)
  | none =>
    match downloadImageM fetchOk imagesPath u st with
    | (some lp, st2) => (some lp, { st2 with cache := (u, lp) :: st2.cache })
    | (none, st2) => (none, st2)

/-- One iteration of the `imgRegex` match loop (lines 102-126): resolve the
captured URL and, on success, replace the first occurrence of the full match
text with the rebuilt tag. -/
def applyImgMatch (fetchOk : String → Bool) (imagesPath docDir : String)
    (acc : String × RunState) (m : ImgMatch) : String × RunState :=
  match resolveUrlM fetchOk imagesPath m.g2 acc.2 with
  | (none, st2) => (acc.1, st2)
  | (some lp, st2) =>
    let rel := pathRelative docDir lp
    (strReplaceFirst acc.1 m.full (m.g1 ++ rel ++ m.g3), st2)

/-- One iteration of the `srcsetRegex` match loop (lines 135-153): resolve
the captured URL and, on success, replace the first occurrence of the URL
text with the relative path. -/
def applySrcsetMatch (fetchOk : String → Bool) (imagesPath docDir : String)
    (acc : String × RunState) (m : SrcsetMatch) : String × RunState :=
  match resolveUrlM fetchOk imagesPath m.g2 acc.2 with
  | (none, st2) => (acc.1, st2)
  | (some lp, st2) => (strReplaceFirst acc.1 m.g2 (pathRelative docDir lp), st2)

/-- The per-origin body of `processHtmlFile` (lines 92-153): both match
lists are computed up front (`[...matchAll]`) on the content current at scan
time, then folded through the replacement loops. -/
def processOrigin (fetchOk : String → Bool) (imagesPath docDir : String)
    (acc : String × RunState) (origin : String) : String × RunState :=
  let acc1 := (imgScan origin acc.1).foldl (applyImgMatch fetchOk imagesPath docDir) acc
  (srcsetScan origin acc1.1).foldl (applySrcsetMatch fetchOk imagesPath docDir) acc1

/-- `processHtmlFile` on one document body (persistence of the unchanged /
changed text is outside the model). -/
def processDocM (fetchOk : String → Bool) (imagesPath docDir : String)
    (origins : List String) (content : String) (st : RunState) : String × RunState :=
  origins.foldl (processOrigin fetchOk imagesPath docDir) (content, st)

/-! ## `downloadWithTimeout` (src/index.js lines 217-319)

One call opens a write stream (creating the file), arms a timer for
`timeout` milliseconds, and issues the request.  Every failure handler —
timer expiry, request timeout, network error, non-200 non-redirect status,
write error — destroys the stream, unlinks the file and resolves `null`;
the promise is never rejected.  A 3xx response with a `location` header
clears the timer, unlinks the partial file and recurses on the resolved URL
*passing the same `timeout` value*, which arms a fresh full-length timer for
the next hop (line 249).

The model consumes one `Hop` per request: `elapsed` is the time from that
request's start to its deciding event.  A hop whose `elapsed` reaches
`timeout` is preempted by that hop's timer.  An empty hop list models a
request that never receives a response: its timer fires after `timeout`. -/

inductive BodyOutcome
  | streamed
  | writeErr
  | stalled
deriving DecidableEq, Repr

inductive NetEvent
  | response (code : Nat) (location : Option String) (body : BodyOutcome)
  | netError
deriving DecidableEq, Repr

structure Hop where
  elapsed : Nat
  event : NetEvent
deriving DecidableEq, Repr

/-- State of the destination file after the call: deleted, still the open
partial stream, or fully flushed. -/
inductive FileState
  | absent
  | opened
  | complete
deriving DecidableEq, Repr

structure DWOut where
  result : Option String
  file : FileState
  total : Nat
deriving DecidableEq, Repr

/-- `scheme://authority` of a URL (fallback: the URL itself). -/
def urlOrigin (base : String) : String :=
  match parseScheme base.data with
  | none => base
  | some (sch, rest) =>
    match rest with
    | '/' :: '/' :: r1 =>
      let auth := r1.takeWhile fun c => !(c = '/' || c = '?' || c = '#')
      ⟨sch ++ ':' :: '/' :: '/' :: auth⟩
    | _ => base

/-- Text of a URL up to and including its last `/`. -/
def urlDir (base : String) : String :=
  match lastIdxOf '/' base.data with
  | none => base ++ "/"
  | some i => ⟨base.data.take (i + 1)⟩

/-- `new URL(location, url).href`, simplified to the three RFC 3986 cases
exercised by redirects: absolute location, host-relative path, and relative
reference. -/
def urlResolveM (loc base : String) : String :=
  if (parseScheme loc.data).isSome then loc
  else
    match loc.data with
    | '/' :: _ => urlOrigin base ++ loc
    | _ => urlDir base ++ loc

/-- `downloadWithTimeout(url, localPath, timeout)` over a hop list. -/
def downloadWT (timeout : Nat) (localPath : String) : String → List Hop → DWOut
  | _, [] => { result := none, file := .absent, total := timeout }
  | url, h :: rest =>
    if timeout ≤ h.elapsed then { result := none, file := .absent, total := timeout }
    else
      match h.event with
      | .netError => { result := none, file := .absent, total := h.elapsed }
      | .response code loc body =>
        if 300 ≤ code ∧ code < 400 ∧ loc.isSome then
          let o := downloadWT timeout localPath (urlResolveM (loc.getD "") url) rest
          { o with total := h.elapsed + o.total }
        else if code = 200 then
          match body with
          | .streamed => { result := some localPath, file := .complete, total := h.elapsed }
          | .writeErr => { result := none, file := .absent, total := h.elapsed }
          | .stalled => { result := none, file := .absent, total := timeout }
        else { result := none, file := .absent, total := h.elapsed }

end GRA

namespace GRA

/-! ## Sanity checks of the MD5 model against RFC 1321 test vectors -/

set_option maxRecDepth 40000 in
example : md5Hex "" = "d41d8cd98f00b204e9800998ecf8427e" := by decide

set_option maxRecDepth 40000 in
example : md5Hex "abc" = "900150983cd24fb0d6963f7d28e17f72" := by decide

/-! ## Claims -/

/-- C1: the filename deriver is a pure function of `(imagesPath, u)` (the
model is a Lean function, so repeated applications are definitionally equal
— no random or time-based component exists), and whenever derivation
succeeds the result has the form
`<imagesPath>/cms/cms-image-<md5-hex-of-u><ext>` with `<ext>` drawn from the
allow-list (the lowercased, percent-decoded trailing extension of the URL's
last pathname segment) or the fixed default `.jpg`. -/
theorem c1_derived_filename_form (imagesPath u f : String)
    (h : deriveLocalPath imagesPath u = some f) :
    ∃ e : String, (e ∈ allowedExts ∨ e = ".jpg") ∧
      f = pathJoin (pathJoin imagesPath "cms") ("cms-image-" ++ md5Hex u ++ e) := by
  unfold deriveLocalPath deriveParts at h
  split at h
  · simp at h
  · dsimp only at h
    split at h
    · simp at h
    · split at h
      · simp at h
      · rename_i ext hext
        simp only [Option.map_some', Option.some.injEq] at h
        refine ⟨ext, ?_, h.symm⟩
        split at hext
        · right
          simpa using hext.symm
        · split at hext
          · simp at hext
          · simp only [Option.some.injEq] at hext
            subst hext
            split
            · rename_i hc
              rw [Bool.and_eq_true] at hc
              left
              simpa using hc.2
            · right
              rfl

set_option maxRecDepth 100000 in
/-- C1 witness: concrete derivation for `https://x.co/b%20c.PNG`, whose
percent-decoded, lowercased trailing extension `.png` is in the allow-list. -/
theorem c1_derived_filename_form_witness :
    ∃ e : String, (e ∈ allowedExts ∨ e = ".jpg") ∧
      pathJoin (pathJoin "/out/images" "cms")
          ("cms-image-" ++ md5Hex "https://x.co/b%20c.PNG" ++ ".png") =
        pathJoin (pathJoin "/out/images" "cms")
          ("cms-image-" ++ md5Hex "https://x.co/b%20c.PNG" ++ e) :=
  c1_derived_filename_form "/out/images" "https://x.co/b%20c.PNG"
    (pathJoin (pathJoin "/out/images" "cms")
      ("cms-image-" ++ md5Hex "https://x.co/b%20c.PNG" ++ ".png"))
    (by decide)

/-- C2: `downloadWithTimeout` never rejects (the model is total and its
result channel is the resolved value): every run either resolves the
destination path with the file fully flushed, or resolves `null` with any
partially written file deleted — no failure path leaves a partial file, and
failure is never reported as a thrown exception. -/
theorem c2_failure_deletes_partial_file (timeout : Nat) (localPath : String) :
    ∀ (hops : List Hop) (url : String),
      ((downloadWT timeout localPath url hops).result = some localPath ∧
        (downloadWT timeout localPath url hops).file = FileState.complete) ∨
      ((downloadWT timeout localPath url hops).result = none ∧
        (downloadWT timeout localPath url hops).file = FileState.absent) := by
  intro hops
  induction hops with
  | nil => intro url; right; simp [downloadWT]
  | cons h rest ih =>
    intro url
    by_cases ht : timeout ≤ h.elapsed
    · right; simp [downloadWT, ht]
    · rcases hev : h.event with ⟨code, loc, body⟩ | _
      · by_cases hr : 300 ≤ code ∧ code < 400 ∧ loc.isSome = true
        · have hrec := ih (urlResolveM (loc.getD "") url)
          simpa [downloadWT, ht, hev, hr] using hrec
        · by_cases hc : code = 200
          · rcases body with _ | _ | _ <;> simp [downloadWT, ht, hev, hr, hc]
          · right; simp [downloadWT, ht, hev, hr, hc]
      · right; simp [downloadWT, ht, hev]

/-- C3: the per-reference resolution of `processHtmlFile` around
`downloadImage`: a cached URL returns the stored path with the state (cache,
files, fetch count) untouched; an uncached URL whose derived file already
exists is recorded in the cache and returned with no Fetcher invocation; and
when the Fetcher fails nothing is cached, the resolved path is `null`, and
only the invocation count changes — so the URL stays eligible for a fresh
attempt at its next reference in the same run. -/
theorem c3_cache_resolution (fetchOk : String → Bool) (imagesPath u : String) (st : RunState) :
    (∀ p, lookupCache st.cache u = some p →
      resolveUrlM fetchOk imagesPath u st = (some p, st)) ∧
    (lookupCache st.cache u = none →
      ∀ enc fn, deriveParts u = some (enc, fn) →
        (st.files.contains (pathJoin (pathJoin imagesPath "cms") fn) = true →
          resolveUrlM fetchOk imagesPath u st =
            (some (pathJoin (pathJoin imagesPath "cms") fn),
             { st with
                cache := (u, pathJoin (pathJoin imagesPath "cms") fn) :: st.cache })) ∧
        (st.files.contains (pathJoin (pathJoin imagesPath "cms") fn) = false →
          fetchOk enc = false →
          resolveUrlM fetchOk imagesPath u st =
            (none, { st with fetches := st.fetches + 1 }))) := by
  refine ⟨fun p hp => ?_, fun hn enc fn hd => ⟨fun hex => ?_, fun hnex hf => ?_⟩⟩
  · unfold resolveUrlM
    rw [hp]
  · unfold resolveUrlM downloadImageM
    rw [hn, hd]
    have hex2 : pathJoin (pathJoin imagesPath "cms") fn ∈ st.files := by simpa using hex
    simp [hex2]
  · unfold resolveUrlM downloadImageM
    rw [hn, hd]
    have hnex2 : pathJoin (pathJoin imagesPath "cms") fn ∉ st.files := by simpa using hnex
    simp [hnex2, hf]

set_option maxRecDepth 100000 in
/-- C3 witness: the three cases at concrete inputs — a cache hit, an
existing derived file, and a failing fetch. -/
theorem c3_cache_resolution_witness :
    (resolveUrlM (fun _ => false) "/out/images" "https://x.co/a.jpg"
        ⟨[("https://x.co/a.jpg", "p.jpg")], [], 0⟩ =
      (some "p.jpg", ⟨[("https://x.co/a.jpg", "p.jpg")], [], 0⟩)) ∧
    (resolveUrlM (fun _ => false) "/out/images" "https://x.co/a.jpg"
        ⟨[], [pathJoin (pathJoin "/out/images" "cms")
          ("cms-image-" ++ md5Hex "https://x.co/a.jpg" ++ ".jpg")], 0⟩ =
      (some (pathJoin (pathJoin "/out/images" "cms")
          ("cms-image-" ++ md5Hex "https://x.co/a.jpg" ++ ".jpg")),
       ⟨[("https://x.co/a.jpg", pathJoin (pathJoin "/out/images" "cms")
          ("cms-image-" ++ md5Hex "https://x.co/a.jpg" ++ ".jpg"))],
        [pathJoin (pathJoin "/out/images" "cms")
          ("cms-image-" ++ md5Hex "https://x.co/a.jpg" ++ ".jpg")], 0⟩)) ∧
    (resolveUrlM (fun _ => false) "/out/images" "https://x.co/a.jpg" ⟨[], [], 0⟩ =
      (none, ⟨[], [], 1⟩)) := by
  refine ⟨?_, ?_, ?_⟩
  · exact (c3_cache_resolution (fun _ => false) "/out/images" "https://x.co/a.jpg"
      ⟨[("https://x.co/a.jpg", "p.jpg")], [], 0⟩).1 "p.jpg" (by decide)
  · exact ((c3_cache_resolution (fun _ => false) "/out/images" "https://x.co/a.jpg"
      ⟨[], [pathJoin (pathJoin "/out/images" "cms")
        ("cms-image-" ++ md5Hex "https://x.co/a.jpg" ++ ".jpg")], 0⟩).2 rfl
      "https://x.co/a.jpg" ("cms-image-" ++ md5Hex "https://x.co/a.jpg" ++ ".jpg")
      (by decide)).1 (by decide)
  · exact ((c3_cache_resolution (fun _ => false) "/out/images" "https://x.co/a.jpg"
      ⟨[], [], 0⟩).2 rfl
      "https://x.co/a.jpg" ("cms-image-" ++ md5Hex "https://x.co/a.jpg" ++ ".jpg")
      (by decide)).2 (by decide) rfl

set_option maxRecDepth 100000 in
/-- C4 (documenting a code bug): on the spec scenario
`srcset="https://cdn.example.com/x.jpg 1x, https://cdn.example.com/y.jpg 2x"`
the srcset matcher does not produce the two candidate URLs: the
template-literal `\\s` escape collapses to the letter `s`, so the candidate
class is `[^s",]`, and the greedy `[^"]*` prefix backtracks to the *last*
origin occurrence — yielding a single match whose captured "URL" is
`https://cdn.example.com/y.jpg 2x` with the descriptor glued on.  On
`img`/`source` tags the tag matcher fires first and captures the entire
srcset value as one URL. -/
theorem c4_srcset_candidates_not_split :
    ((srcsetScan "https://cdn.example.com"
        "<p srcset=\"https://cdn.example.com/x.jpg 1x, https://cdn.example.com/y.jpg 2x\">").map
      SrcsetMatch.g2 = ["https://cdn.example.com/y.jpg 2x"]) ∧
    ((imgScan "https://cdn.example.com"
        "<img srcset=\"https://cdn.example.com/x.jpg 1x, https://cdn.example.com/y.jpg 2x\">").map
      ImgMatch.g2 =
      ["https://cdn.example.com/x.jpg 1x, https://cdn.example.com/y.jpg 2x"]) := by decide

set_option maxRecDepth 400000 in
/-- C5 counterexample: the srcset substitution is `content.replace(imageUrl,
relativePath)`, which rewrites the *first* textual occurrence.  In a document
whose comment contains the same URL text before the matched srcset
attribute, the comment occurrence (at index 5) is rewritten and the matched
srcset occurrence survives. -/
theorem c5_counterexample_comment_rewritten :
    occursAt "<!-- https://x.co/a.jpg --><p srcset=\"https://x.co/a.jpg\">".data 5
        "https://x.co/a.jpg".data = true ∧
    occursAt (processDocM (fun u => u == "https://x.co/a.jpg") "/site/images" "/site"
        ["https://x.co"] "<!-- https://x.co/a.jpg --><p srcset=\"https://x.co/a.jpg\">"
        ⟨[], [], 0⟩).1.data 5 "https://x.co/a.jpg".data = false ∧
    containsSub (processDocM (fun u => u == "https://x.co/a.jpg") "/site/images" "/site"
        ["https://x.co"] "<!-- https://x.co/a.jpg --><p srcset=\"https://x.co/a.jpg\">"
        ⟨[], [], 0⟩).1.data "srcset=\"https://x.co/a.jpg\"".data = true := by decide

/-- C5 amended: the substitution primitive replaces exactly the first
occurrence of the search text, leaving everything else unchanged; the
replacement is scoped to the matched span precisely when the matched text
does not occur earlier in the document. -/
theorem c5_amended_first_occurrence_scoped (a s b r : List Char) (hs : s ≠ [])
    (h : ∀ k, k < a.length → occursAt (a ++ s ++ b) k s = false) :
    replaceFirstL (a ++ s ++ b) s r = a ++ r ++ b := by
  induction a with
  | nil =>
    rcases hcons : s with _ | ⟨c, t⟩
    · exact absurd hcons hs
    · subst hcons
      simp only [List.nil_append, List.cons_append]
      unfold replaceFirstL
      have hpre : (c :: t).isPrefixOf (c :: (t ++ b)) = true := by
        simp only [← List.cons_append]
        exact List.isPrefixOf_iff_prefix.mpr (List.prefix_append (c :: t) b)
      simp only [hpre, if_true, List.length_cons, List.drop_succ_cons]
      rw [List.drop_left]
  | cons c a2 ih =>
    have h0 : s.isPrefixOf (c :: (a2 ++ s ++ b)) = false := by
      have h1 := h 0 (by simp)
      simpa [occursAt] using h1
    simp only [List.cons_append]
    unfold replaceFirstL
    simp only [h0, Bool.false_eq_true, if_false]
    have ih2 := ih fun k hk => by
      have h1 := h (k + 1) (by simpa using Nat.succ_lt_succ hk)
      simpa [occursAt] using h1
    rw [ih2]

/-- C5 amended witness: a concrete instance in which the search text has no
earlier occurrence, so exactly the matched span is replaced. -/
theorem c5_amended_first_occurrence_scoped_witness :
    replaceFirstL ("xy".data ++ "ab".data ++ "z".data) "ab".data "Q".data =
      "xy".data ++ "Q".data ++ "z".data :=
  c5_amended_first_occurrence_scoped "xy".data "ab".data "z".data "Q".data
    (by decide) (by decide)

set_option maxRecDepth 100000 in
/-- C6 counterexample: both scanner regexes carry the `i` flag over the
interpolated origin, so a document URL differing from the configured origin
only in letter case *is* matched: origin `https://cdn.example.com` matches
the attribute value `HTTPS://CDN.EXAMPLE.COM/a.png` (here with a lowercase
tag and attribute, isolating the URL's case). -/
theorem c6_counterexample_url_case_insensitive :
    imgScan "https://cdn.example.com" "<img src=\"HTTPS://CDN.EXAMPLE.COM/a.png\">" ≠ [] := by
  decide

set_option maxRecDepth 100000 in
/-- C6 amended: matching is case-insensitive on the tag and attribute names
*and* on the URL's origin prefix (the whole pattern is compiled with the `i`
flag); the captured URL keeps the document's original casing.  Both the
lowercase and the upper-case renderings of the same reference match, in both
the tag matcher and the srcset matcher. -/
theorem c6_amended_match_case_insensitive :
    ((imgScan "https://cdn.example.com" "<img src=\"https://cdn.example.com/a.png\">").map
      ImgMatch.g2 = ["https://cdn.example.com/a.png"]) ∧
    ((imgScan "https://cdn.example.com" "<IMG SRC=\"HTTPS://CDN.EXAMPLE.COM/a.png\">").map
      ImgMatch.g2 = ["HTTPS://CDN.EXAMPLE.COM/a.png"]) ∧
    ((srcsetScan "https://cdn.example.com" "<p SRCSET=\"HTTPS://CDN.EXAMPLE.COM/a.png\">").map
      SrcsetMatch.g2 = ["HTTPS://CDN.EXAMPLE.COM/a.png"]) := by decide

/-- C7 counterexample: each redirect hop passes the same `timeout` *value*
(src/index.js line 249), arming a fresh full-length timer; a single redirect
whose two hops each take 29999 ms completes successfully after 59998 ms,
beyond the single configured 30000 ms budget. -/
theorem c7_counterexample_rearmed_timer :
    downloadWT 30000 "/out/images/cms/f.jpg" "https://x.co/a.jpg"
        [⟨29999, NetEvent.response 301 (some "https://y.co/b.jpg") BodyOutcome.streamed⟩,
         ⟨29999, NetEvent.response 200 none BodyOutcome.streamed⟩] =
      { result := some "/out/images/cms/f.jpg", file := FileState.complete,
        total := 59998 } ∧
    30000 < 59998 := by decide

/-- C7 amended: a 3xx hop with a location resolves it against the current
URL, discards the partial file and retries — but with a freshly re-armed
timer per hop and no hop cap, so a successful chain over `n` responses is
bounded only by `n` times the configured timeout, not by a single timeout. -/
theorem c7_amended_per_hop_rearm (timeout : Nat) (localPath : String) :
    ∀ (hops : List Hop) (url p : String),
      (downloadWT timeout localPath url hops).result = some p →
      (downloadWT timeout localPath url hops).total ≤ hops.length * timeout := by
  intro hops
  induction hops with
  | nil => intro url p hp; simp [downloadWT] at hp
  | cons h rest ih =>
    intro url p hp
    by_cases ht : timeout ≤ h.elapsed
    · simp [downloadWT, ht] at hp
    · rcases hev : h.event with ⟨code, loc, body⟩ | _
      · by_cases hr : 300 ≤ code ∧ code < 400 ∧ loc.isSome = true
        · rw [downloadWT] at hp ⊢
          simp only [if_neg ht, hev, if_pos hr] at hp ⊢
          have hrec := ih (urlResolveM (loc.getD "") url) p hp
          have helapsed : h.elapsed ≤ timeout := Nat.le_of_lt (Nat.lt_of_not_le ht)
          calc h.elapsed +
                (downloadWT timeout localPath (urlResolveM (loc.getD "") url) rest).total
              ≤ timeout + rest.length * timeout := Nat.add_le_add helapsed hrec
            _ = (rest.length + 1) * timeout := by ring
        · by_cases hc : code = 200
          · rcases body with _ | _ | _ <;>
              simp only [downloadWT, if_neg ht, hev, if_neg hr, if_pos hc] at hp ⊢ <;>
              first
                | (simp only [List.length_cons]
                   exact Nat.le_trans (Nat.le_of_lt (Nat.lt_of_not_le ht))
                     (Nat.le_mul_of_pos_left timeout (Nat.succ_pos rest.length)))
                | simp at hp
          · simp only [downloadWT, if_neg ht, hev, if_neg hr, if_neg hc] at hp
            simp at hp
      · simp [downloadWT, ht, hev] at hp

/-- C7 amended witness: the bound applied to the concrete two-hop chain. -/
theorem c7_amended_per_hop_rearm_witness :
    (downloadWT 30000 "/out/images/cms/f.jpg" "https://x.co/a.jpg"
        [⟨29999, NetEvent.response 301 (some "https://y.co/b.jpg") BodyOutcome.streamed⟩,
         ⟨29999, NetEvent.response 200 none BodyOutcome.streamed⟩]).total ≤
      [⟨29999, NetEvent.response 301 (some "https://y.co/b.jpg") BodyOutcome.streamed⟩,
       (⟨29999, NetEvent.response 200 none BodyOutcome.streamed⟩ : Hop)].length * 30000 :=
  c7_amended_per_hop_rearm 30000 "/out/images/cms/f.jpg"
    [⟨29999, NetEvent.response 301 (some "https://y.co/b.jpg") BodyOutcome.streamed⟩,
     ⟨29999, NetEvent.response 200 none BodyOutcome.streamed⟩]
    "https://x.co/a.jpg" "/out/images/cms/f.jpg" (by decide)

/-- C8 counterexample: on the malformed URL `https://x.co/a%` (a dangling
percent escape, on which `decodeURI` throws) `downloadImage` catches the
exception and returns `null`: no filename is derived, the default extension
is never applied, and no content-addressed naming is attempted. -/
theorem c8_counterexample_malformed_skipped :
    deriveParts "https://x.co/a%" = none ∧
    downloadImageM (fun _ => true) "/out/images" "https://x.co/a%" ⟨[], [], 0⟩ =
      (none, ⟨[], [], 0⟩) := by decide

/-- C8 amended: a URL on which filename derivation throws is skipped without
throwing to the caller — `downloadImage` reports `null` and performs no
Fetcher invocation and no state change; the default-extension fallback
applies only to URLs that parse but lack an allowed extension. -/
theorem c8_amended_malformed_null_no_state_change (fetchOk : String → Bool)
    (imagesPath u : String) (st : RunState) (h : deriveParts u = none) :
    downloadImageM fetchOk imagesPath u st = (none, st) := by
  unfold downloadImageM
  rw [h]

/-- C8 amended witness: the skip at the concrete malformed URL. -/
theorem c8_amended_malformed_null_no_state_change_witness :
    downloadImageM (fun _ => true) "/out/images" "https://x.co/a%"
      ⟨[("k", "v")], ["f"], 3⟩ = (none, ⟨[("k", "v")], ["f"], 3⟩) :=
  c8_amended_malformed_null_no_state_change (fun _ => true) "/out/images"
    "https://x.co/a%" ⟨[("k", "v")], ["f"], 3⟩ (by decide)

set_option maxRecDepth 400000 in
/-- C9 counterexample: over the document of the C5 scenario, the first run
fetches once but rewrites the comment occurrence; the second run over the
first run's output performs zero downloads (the existence check
short-circuits), yet rewrites the still-remote srcset occurrence, so the
resulting HTML is not byte-identical to the first run's output. -/
theorem c9_counterexample_second_run_changes_bytes :
    (processDocM (fun u => u == "https://x.co/a.jpg") "/site/images" "/site"
        ["https://x.co"] "<!-- https://x.co/a.jpg --><p srcset=\"https://x.co/a.jpg\">"
        ⟨[], [], 0⟩).2.fetches = 1 ∧
    (processDocM (fun u => u == "https://x.co/a.jpg") "/site/images" "/site"
        ["https://x.co"]
        (processDocM (fun u => u == "https://x.co/a.jpg") "/site/images" "/site"
          ["https://x.co"] "<!-- https://x.co/a.jpg --><p srcset=\"https://x.co/a.jpg\">"
          ⟨[], [], 0⟩).1
        ⟨[], (processDocM (fun u => u == "https://x.co/a.jpg") "/site/images" "/site"
          ["https://x.co"] "<!-- https://x.co/a.jpg --><p srcset=\"https://x.co/a.jpg\">"
          ⟨[], [], 0⟩).2.files, 0⟩).2.fetches = 0 ∧
    (processDocM (fun u => u == "https://x.co/a.jpg") "/site/images" "/site"
        ["https://x.co"]
        (processDocM (fun u => u == "https://x.co/a.jpg") "/site/images" "/site"
          ["https://x.co"] "<!-- https://x.co/a.jpg --><p srcset=\"https://x.co/a.jpg\">"
          ⟨[], [], 0⟩).1
        ⟨[], (processDocM (fun u => u == "https://x.co/a.jpg") "/site/images" "/site"
          ["https://x.co"] "<!-- https://x.co/a.jpg --><p srcset=\"https://x.co/a.jpg\">"
          ⟨[], [], 0⟩).2.files, 0⟩).1 ≠
      (processDocM (fun u => u == "https://x.co/a.jpg") "/site/images" "/site"
        ["https://x.co"] "<!-- https://x.co/a.jpg --><p srcset=\"https://x.co/a.jpg\">"
        ⟨[], [], 0⟩).1 := by decide

/-- C9 amended: the zero-additional-downloads half of the claim holds — a URL
downloaded successfully by `downloadImage` resolves in a later run (fresh
cache, same file tree) through the existence check alone, with no Fetcher
invocation and to the same local path — but the resulting HTML of a second
run need not be byte-identical, because substitution targets first textual
occurrences (C5). -/
theorem c9_amended_rerun_zero_downloads (fetchOk fetchOk2 : String → Bool)
    (imagesPath u lp : String) (st st2 : RunState)
    (h : downloadImageM fetchOk imagesPath u st = (some lp, st2)) :
    resolveUrlM fetchOk2 imagesPath u ⟨[], st2.files, 0⟩ =
      (some lp, ⟨[(u, lp)], st2.files, 0⟩) := by
  unfold downloadImageM at h
  rcases hd : deriveParts u with _ | ⟨enc, fn⟩
  · rw [hd] at h
    simp at h
  · rw [hd] at h
    dsimp only at h
    by_cases hex : pathJoin (pathJoin imagesPath "cms") fn ∈ st.files
    · have hex2 : st.files.contains (pathJoin (pathJoin imagesPath "cms") fn) = true := by
        simpa using hex
      rw [if_pos hex2] at h
      obtain ⟨hlp, hst⟩ := Prod.mk.injEq .. ▸ h
      unfold resolveUrlM downloadImageM
      rw [hd]
      simp only [lookupCache]
      have hmem : st2.files.contains (pathJoin (pathJoin imagesPath "cms") fn) = true := by
        rw [← hst]
        exact hex2
      rw [if_pos hmem]
      simp only [Option.some.injEq] at hlp
      rw [hlp]
    · have hex2 : st.files.contains (pathJoin (pathJoin imagesPath "cms") fn) = false := by
        simpa using hex
      rw [if_neg (by rw [hex2]; exact Bool.false_ne_true)] at h
      by_cases hf : fetchOk enc = true
      · rw [if_pos hf] at h
        obtain ⟨hlp, hst⟩ := Prod.mk.injEq .. ▸ h
        unfold resolveUrlM downloadImageM
        rw [hd]
        simp only [lookupCache]
        have hmem : st2.files.contains (pathJoin (pathJoin imagesPath "cms") fn) = true := by
          rw [← hst]
          simp
        rw [if_pos hmem]
        simp only [Option.some.injEq] at hlp
        rw [hlp]
      · rw [if_neg hf] at h
        simp at h

set_option maxRecDepth 100000 in
/-- C9 amended witness: after a successful download of a concrete URL, a
fresh-cache resolution over the resulting file tree returns the same path
with zero Fetcher invocations, even under an oracle that fails every fetch. -/
theorem c9_amended_rerun_zero_downloads_witness :
    resolveUrlM (fun _ => false) "/site/images" "https://x.co/a.jpg"
        ⟨[], [pathJoin (pathJoin "/site/images" "cms")
          ("cms-image-" ++ md5Hex "https://x.co/a.jpg" ++ ".jpg")], 0⟩ =
      (some (pathJoin (pathJoin "/site/images" "cms")
          ("cms-image-" ++ md5Hex "https://x.co/a.jpg" ++ ".jpg")),
       ⟨[("https://x.co/a.jpg", pathJoin (pathJoin "/site/images" "cms")
          ("cms-image-" ++ md5Hex "https://x.co/a.jpg" ++ ".jpg"))],
        [pathJoin (pathJoin "/site/images" "cms")
          ("cms-image-" ++ md5Hex "https://x.co/a.jpg" ++ ".jpg")], 0⟩) :=
  c9_amended_rerun_zero_downloads (fun _ => true) (fun _ => false)
    "/site/images" "https://x.co/a.jpg"
    (pathJoin (pathJoin "/site/images" "cms")
      ("cms-image-" ++ md5Hex "https://x.co/a.jpg" ++ ".jpg"))
    ⟨[], [], 0⟩
    ⟨[], [pathJoin (pathJoin "/site/images" "cms")
      ("cms-image-" ++ md5Hex "https://x.co/a.jpg" ++ ".jpg")], 1⟩
    (by decide)

set_option maxRecDepth 100000 in
/-- C10: the configured origin is interpolated into the patterns without
escaping, so its `.` characters are regex wildcards: origin
`https://cdn.example.com` matches the document URL
`https://cdnXexample.com/a.png`, which does not start with the origin as a
literal string. -/
theorem c10_origin_dot_wildcard :
    ("https://cdn.example.com".data.isPrefixOf "https://cdnXexample.com/a.png".data = false) ∧
    (imgScan "https://cdn.example.com" "<img src=\"https://cdnXexample.com/a.png\">").map
      ImgMatch.g2 = ["https://cdnXexample.com/a.png"] := by decide

end GRA
